import Mathlib

/-
Shallow embedding of the Aquarius ingestion engine
(src/aquarius/events/events_monitor.py, src/aquarius/events/proof_checker.py).

Block numbers and checkpoint values are Python integers, modelled as `Int`.
The Elasticsearch checkpoint document is modelled as `Option Int` (the
`last_block` field of the document `events_last_block_<chainId>` when it
exists).  The configured default start block (`get_defined_block`, which
lives outside this repository's src) is passed as an explicit parameter `d`.
-/

/-- Outcome of the Elasticsearch read performed by `get_last_processed_block`:
the document exists with a `last_block` value, it is absent (NotFoundError),
or the read raises some other exception. -/
inductive ESRead where
  | ok (v : Int)
  | notFound
  | readFail
deriving DecidableEq

/-- A successful read of the checkpoint state: an existing document yields its
`last_block`, an absent one yields NotFound. -/
def readOf : Option Int → ESRead
  | some v => ESRead.ok v
  | none => ESRead.notFound

/-- `get_last_processed_block` (events_monitor.py:315-343).  `block` is
initialised to `get_defined_block` (here `d`); a successful ES read replaces
it with the stored `last_block` when that value is `>= 0`; NotFound and any
other read error leave the default in place.  The function never raises. -/
def get_last_processed_block (d : Int) : ESRead → Int
  | ESRead.ok v => if 0 ≤ v then v else d
  | ESRead.notFound => d
  | ESRead.readFail => d

/-- `store_last_processed_block` (events_monitor.py:345-363): re-reads the
current checkpoint and returns without writing when `block <= stored_block`;
otherwise indexes `{"last_block": block}`. -/
def store_last_processed_block (d : Int) (block : Int) (s : Option Int) : Option Int :=
  if block ≤ get_last_processed_block d (readOf s) then s else some block

/-- An asset document in the primary index, reduced to the fields the
clean-start path touches: its id and its `chainId`. -/
structure Asset where
  id : Nat
  chainId : Int
deriving DecidableEq

/-- The per-chain slice of the store state: the asset documents and the
checkpoint document. -/
structure MonitorState where
  assets : List Asset
  lastBlock : Option Int
deriving DecidableEq

/-- `get_assets_in_chain` (events_monitor.py:398-413): all documents of the
primary index whose `chainId` matches the monitor's chain. -/
def get_assets_in_chain (chain : Int) (st : MonitorState) : List Asset :=
  st.assets.filter (fun a => a.chainId = chain)

/-- `reset_chain` (events_monitor.py:388-396): deletes every asset returned by
`get_assets_in_chain`, then calls `store_last_processed_block` with the
configured start block. -/
def reset_chain (d start chain : Int) (st : MonitorState) : MonitorState :=
  { assets := st.assets.filter (fun a => ¬ a.chainId = chain),
    lastBlock := store_last_processed_block d start st.lastBlock }

lemma get_last_processed_block_nonneg (d : Int) (hd : 0 ≤ d) (r : ESRead) :
    0 ≤ get_last_processed_block d r := by
  cases r with
  | ok v =>
    simp only [get_last_processed_block]
    split <;> omega
  | notFound => exact hd
  | readFail => exact hd

/-- C1 counterexample: with default start block 0 and a stored checkpoint of
100, `storeLastBlock(50)` followed by `storeLastBlock(40)` leaves the stored
value at 100, not at `x = 50` as the claim states. -/
theorem store_last_processed_block_pair_counterexample :
    get_last_processed_block 0
      (readOf (store_last_processed_block 0 40 (store_last_processed_block 0 50 (some 100))))
      ≠ 50 := by decide

/-- C1 (amended): with a nonnegative default start block, `storeLastBlock(x)`
followed by `storeLastBlock(y)` with `y ≤ x` makes the second call a no-op,
and the resulting stored value is `max(previous value, x)` — in particular it
is `x` exactly when `x` exceeded the value read before the first call. -/
theorem store_last_processed_block_monotone_pair (d x y : Int) (s : Option Int)
    (hd : 0 ≤ d) (hyx : y ≤ x) :
    store_last_processed_block d y (store_last_processed_block d x s)
        = store_last_processed_block d x s
    ∧ get_last_processed_block d
        (readOf (store_last_processed_block d y (store_last_processed_block d x s)))
        = max (get_last_processed_block d (readOf s)) x := by
  have hg : 0 ≤ get_last_processed_block d (readOf s) :=
    get_last_processed_block_nonneg d hd (readOf s)
  by_cases hxg : x ≤ get_last_processed_block d (readOf s)
  · have h1 : store_last_processed_block d x s = s := by
      simp [store_last_processed_block, hxg]
    have h2 : store_last_processed_block d y s = s := by
      simp [store_last_processed_block]
      intro hc
      omega
    refine ⟨by rw [h1, h2], ?_⟩
    rw [h1, h2]
    omega
  · have h1 : store_last_processed_block d x s = some x := by
      simp [store_last_processed_block, hxg]
    have hx0 : 0 ≤ x := by omega
    have hgx : get_last_processed_block d (readOf (some x)) = x := by
      simp [get_last_processed_block, readOf, hx0]
    have h2 : store_last_processed_block d y (some x) = some x := by
      simp [store_last_processed_block, hgx]
      intro hc
      omega
    refine ⟨by rw [h1, h2], ?_⟩
    rw [h1, h2, hgx]
    omega

/-- C1 witness: starting from an absent checkpoint with default 0,
`storeLastBlock(50)` then `storeLastBlock(40)` leaves the stored value at 50. -/
theorem store_last_processed_block_monotone_pair_witness :
    store_last_processed_block 0 40 (store_last_processed_block 0 50 none)
        = store_last_processed_block 0 50 none
    ∧ get_last_processed_block 0
        (readOf (store_last_processed_block 0 40 (store_last_processed_block 0 50 none)))
        = max (get_last_processed_block 0 (readOf none)) 50 :=
  store_last_processed_block_monotone_pair 0 50 40 none (by decide) (by decide)

/-- A chain-7 store state with three asset documents and a stored checkpoint
of 100, used to evaluate the clean-start path. -/
def cleanStartState : MonitorState :=
  { assets := [⟨1, 7⟩, ⟨2, 7⟩, ⟨3, 7⟩], lastBlock := some 100 }

/-- C2: evaluating `reset_chain` with start block 42 on a chain holding 3
documents and a stored checkpoint of 100: all documents are removed, but the
checkpoint stays at 100 instead of being reset to 42, because `reset_chain`
routes the reset through the monotonic `store_last_processed_block`, which is
a no-op when `42 <= 100`. -/
theorem reset_chain_clean_start_eval :
    (reset_chain 0 42 7 cleanStartState).assets = []
    ∧ (reset_chain 0 42 7 cleanStartState).lastBlock = some 100
    ∧ (reset_chain 0 42 7 cleanStartState).lastBlock ≠ some 42 := by decide

/-- C8 counterexample: with default start block 42 and an existing checkpoint
document whose stored value is -1, `get_last_processed_block` does not return
the stored value: the `>= 0` guard replaces it with the default. -/
theorem get_last_processed_block_negative_counterexample :
    get_last_processed_block 42 (ESRead.ok (-1)) ≠ -1 := by decide

/-- C8 (amended): `get_last_processed_block` returns the stored value when the
checkpoint document exists with a nonnegative value; a stored negative value,
an absent document (NotFound), and a failed read all yield the configured
default start block.  Being a total function, it never raises. -/
theorem get_last_processed_block_read_default (d v : Int) :
    (0 ≤ v → get_last_processed_block d (ESRead.ok v) = v)
    ∧ (v < 0 → get_last_processed_block d (ESRead.ok v) = d)
    ∧ get_last_processed_block d ESRead.notFound = d
    ∧ get_last_processed_block d ESRead.readFail = d := by
  refine ⟨fun h => ?_, fun h => ?_, rfl, rfl⟩
  · simp [get_last_processed_block, h]
  · simp [get_last_processed_block]
    omega

/-- C8 witness: with default 42, a stored value of 7 is returned as is. -/
theorem get_last_processed_block_read_default_witness :
    get_last_processed_block 42 (ESRead.ok 7) = 7 :=
  (get_last_processed_block_read_default 42 7).1 (by decide)

/-
`check_metadata_proofs` (proof_checker.py:9-40).

`parse` models `set(json.loads(...))` on the ALLOWED_VALIDATORS string
(failure covers JSONDecodeError / TypeError); `checksum` models
`web3.toChecksumAddress` on a single address (failure covers the exception
caught at proof_checker.py:38); `env` is the ALLOWED_VALIDATORS environment
variable (`none` when unset, and the Python falsiness test `not
allowed_validators` is the empty-string test); `proofs` is the list of
`metadata_proof.args.validator` addresses.
-/

/-- The checksum normalisation of a whole address collection (the set
comprehensions at proof_checker.py:26-33): the normalised list, or `none` as
soon as one address raises. -/
def checksum_all (checksum : String → Option String) : List String → Option (List String)
  | [] => some []
  | a :: rest =>
    match checksum a, checksum_all checksum rest with
    | some b, some bs => some (b :: bs)
    | _, _ => none
def check_metadata_proofs (parse : String → Option (List String))
    (checksum : String → Option String)
    (env : Option String) (proofs : List String) : Bool :=
  match env with
  | none => true
  | some s =>
    if s = "" then true
    else
      match parse s with
      | none => false
      | some validators =>
        if validators = [] then true
        else
          match checksum_all checksum proofs, checksum_all checksum validators with
          | some proof_addresses, some allowed_addresses =>
            proof_addresses.any (fun a => allowed_addresses.contains a)
          | _, _ => false

/-- C6: `check_metadata_proofs` returns true for any proof set when the
allow-list is unset, the empty string, or parses to the empty set; when it is
non-empty and parseable and the checksum normalisations succeed, the result is
true iff the checksummed proof addresses intersect the checksummed allow-list. -/
theorem check_metadata_proofs_decision
    (parse : String → Option (List String)) (checksum : String → Option String)
    (s : String) (vs pa aa proofs : List String)
    (hs : s ≠ "") (hparse : parse s = some vs)
    (hpa : checksum_all checksum proofs = some pa)
    (haa : checksum_all checksum vs = some aa) :
    (∀ pfs : List String, check_metadata_proofs parse checksum none pfs = true)
    ∧ (∀ pfs : List String, check_metadata_proofs parse checksum (some "") pfs = true)
    ∧ (vs = [] → check_metadata_proofs parse checksum (some s) proofs = true)
    ∧ (vs ≠ [] →
        (check_metadata_proofs parse checksum (some s) proofs = true ↔ ∃ a ∈ pa, a ∈ aa)) := by
  refine ⟨fun pfs => rfl, fun pfs => rfl, fun hvs => ?_, fun hvs => ?_⟩
  · simp [check_metadata_proofs, hs, hparse, hvs]
  · simp [check_metadata_proofs, hs, hparse, hvs, hpa, haa, List.any_eq_true]

/-- A concrete allow-list JSON parse: the configuration string "ok" parses to
the two validators "a" and "b"; everything else is unparsable. -/
def parse0 : String → Option (List String) :=
  fun s => if s = "ok" then some ["a", "b"] else none

/-- A concrete checksum normalisation: the address "boom" raises, everything
else is already in canonical form. -/
def checksum0 : String → Option String :=
  fun s => if s = "boom" then none else some s

/-- C6 witness: with allow-list ["a", "b"] and proofs ["b", "x"], the
intersection is non-empty and the gate admits. -/
theorem check_metadata_proofs_decision_witness :
    check_metadata_proofs parse0 checksum0 (some "ok") ["b", "x"] = true :=
  ((check_metadata_proofs_decision parse0 checksum0 "ok" ["a", "b"] ["b", "x"]
      ["a", "b"] ["b", "x"] (by decide) (by decide) (by decide) (by decide)).2.2.2
    (by decide)).mpr ⟨"b", by decide, by decide⟩

/-- C7: `check_metadata_proofs` fails closed: a present but unparsable
allow-list yields false, and with a non-empty parsed allow-list, a checksum
failure while normalising either the proofs' addresses or the allow-list's
addresses also yields false. -/
theorem check_metadata_proofs_fails_closed
    (parse : String → Option (List String)) (checksum : String → Option String)
    (s : String) (vs proofs : List String) (hs : s ≠ "") :
    (parse s = none → check_metadata_proofs parse checksum (some s) proofs = false)
    ∧ (parse s = some vs → vs ≠ [] → checksum_all checksum proofs = none →
        check_metadata_proofs parse checksum (some s) proofs = false)
    ∧ (parse s = some vs → vs ≠ [] → checksum_all checksum vs = none →
        check_metadata_proofs parse checksum (some s) proofs = false) := by
  refine ⟨fun hparse => ?_, fun hparse hvs hmap => ?_, fun hparse hvs hmap => ?_⟩
  · simp [check_metadata_proofs, hs, hparse]
  · simp [check_metadata_proofs, hs, hparse, hvs, hmap]
  · simp only [check_metadata_proofs, if_neg hs, hparse, if_neg hvs, hmap]
    cases checksum_all checksum proofs <;> rfl

/-- C7 witness: the configuration string "bad" fails to parse and the gate
rejects even an empty proof set. -/
theorem check_metadata_proofs_fails_closed_witness :
    check_metadata_proofs parse0 checksum0 (some "bad") [] = false :=
  (check_metadata_proofs_fails_closed parse0 checksum0 "bad" [] [] (by decide)).1
    (by decide)

/-
`handle_regular_event_processor` (events_monitor.py:197-235) and
`process_block_range` (events_monitor.py:161-195).

Each raw log is abstracted by the outcomes of the three fallible stages of
its handling: fetching the transaction receipt
(`get_transaction_receipt`, line 216), decoding exactly one event of the
target kind from the receipt (`processReceipt(...)[0]`, line 219, which
raises IndexError when the decode yields nothing), and the try-wrapped tail
(decoding the MetadataValidated proofs, constructing the processor and
running `process()`, lines 222-230).  In the source only that tail is inside
the per-event `try`; receipt fetch and the primary decode are before it.
-/
structure RawEvent where
  idx : Nat
  receiptOk : Bool
  decodeOk : Bool
  processOk : Bool
deriving DecidableEq

/-- `handle_regular_event_processor`: walks the batch in order and returns the
successfully processed events together with a flag telling whether an
uncaught exception escaped the loop.  A receipt or primary-decode failure is
raised outside the `try` and aborts the remaining events; a failure of the
try-wrapped tail is logged and the loop continues. -/
def handle_regular_event_processor : List RawEvent → List RawEvent × Bool
  | [] => ([], false)
  | e :: rest =>
    if e.receiptOk && e.decodeOk then
      let r := handle_regular_event_processor rest
      ((if e.processOk then e :: r.1 else r.1), r.2)
    else ([], true)

/-- The three regular-event-kind passes of `process_block_range`
(events_monitor.py:183-190): the batches are handled in sequence and an
exception escaping one handler aborts the following ones. -/
def runEventKinds : List (List RawEvent) → List RawEvent × Bool
  | [] => ([], false)
  | b :: bs =>
    let r := handle_regular_event_processor b
    if r.2 then (r.1, true)
    else
      let r2 := runEventKinds bs
      (r.1 ++ r2.1, r2.2)

/-- `process_block_range` restricted to its regular-event passes and its
checkpoint write (events_monitor.py:195): `store_last_processed_block
(to_block)` runs only when no exception escaped a handler; an escaping
exception propagates to `do_run_monitor`'s catch and the checkpoint write is
skipped. -/
def process_block_range (d toBlock : Int) (batches : List (List RawEvent))
    (s : Option Int) : List RawEvent × Option Int :=
  let r := runEventKinds batches
  (r.1, if r.2 then s else store_last_processed_block d toBlock s)

/-- An event whose three handling stages all succeed. -/
def okEvent (i : Nat) : RawEvent := ⟨i, true, true, true⟩

/-- An event whose primary decode (`processReceipt(...)[0]`) fails. -/
def badDecodeEvent (i : Nat) : RawEvent := ⟨i, true, false, true⟩

/-- An event whose try-wrapped processor stage fails. -/
def badProcessEvent (i : Nat) : RawEvent := ⟨i, true, true, false⟩

/-- C3 counterexample: in a batch of 5 events where event #2 fails to decode,
only event #1 is processed — events #3, #4, #5 are skipped because the decode
happens outside the per-event `try` — and the checkpoint does not advance to
the end of the range. -/
theorem handle_regular_decode_failure_counterexample :
    (process_block_range 0 10
        [[okEvent 1, badDecodeEvent 2, okEvent 3, okEvent 4, okEvent 5]] (some 0)).1
      = [okEvent 1]
    ∧ (process_block_range 0 10
        [[okEvent 1, badDecodeEvent 2, okEvent 3, okEvent 4, okEvent 5]] (some 0)).2
      = some 0
    ∧ [okEvent 1] ≠ [okEvent 1, okEvent 3, okEvent 4, okEvent 5]
    ∧ some (0 : Int) ≠ some (10 : Int) := by decide

lemma handle_regular_event_processor_all_decodable (b : List RawEvent)
    (h : ∀ e ∈ b, e.receiptOk = true ∧ e.decodeOk = true) :
    handle_regular_event_processor b = (b.filter (fun e => e.processOk), false) := by
  induction b with
  | nil => rfl
  | cons e rest ih =>
    have he := h e (List.mem_cons_self e rest)
    have hrest := ih (fun x hx => h x (List.mem_cons_of_mem e hx))
    simp only [handle_regular_event_processor, he.1, he.2, Bool.and_self, if_true, hrest,
      List.filter_cons]

lemma runEventKinds_all_decodable (batches : List (List RawEvent))
    (h : ∀ b ∈ batches, ∀ e ∈ b, e.receiptOk = true ∧ e.decodeOk = true) :
    runEventKinds batches
      = (batches.flatMap (fun b => b.filter (fun e => e.processOk)), false) := by
  induction batches with
  | nil => rfl
  | cons b bs ih =>
    have hb := handle_regular_event_processor_all_decodable b
      (h b (List.mem_cons_self b bs))
    have hbs := ih (fun x hx => h x (List.mem_cons_of_mem b hx))
    simp [runEventKinds, hb, hbs]

/-- C3 (amended): per-event isolation covers only the try-wrapped stage: for
every collection of regular-event batches in which every event has a receipt
and decodes, processor failures are isolated — exactly the events whose
processor succeeds are processed, in order, and the checkpoint still advances
over the whole range; a missing receipt or a primary decode failure, in
contrast, escapes the per-event `try` and aborts the batch (see the
counterexample). -/
theorem process_block_range_isolation_amended (d toBlock : Int)
    (batches : List (List RawEvent)) (s : Option Int)
    (h : ∀ b ∈ batches, ∀ e ∈ b, e.receiptOk = true ∧ e.decodeOk = true) :
    process_block_range d toBlock batches s
      = (batches.flatMap (fun b => b.filter (fun e => e.processOk)),
         store_last_processed_block d toBlock s) := by
  simp [process_block_range, runEventKinds_all_decodable batches h]

/-- C3 witness: a processor failure on event #2 of 5 still processes events
#1, #3, #4, #5 and the checkpoint advances from 0 to 10. -/
theorem process_block_range_isolation_amended_witness :
    process_block_range 0 10
        [[okEvent 1, badProcessEvent 2, okEvent 3, okEvent 4, okEvent 5]] (some 0)
      = ([okEvent 1, okEvent 3, okEvent 4, okEvent 5], some 10) :=
  (process_block_range_isolation_amended 0 10
      [[okEvent 1, badProcessEvent 2, okEvent 3, okEvent 4, okEvent 5]] (some 0)
      (by decide)).trans (by decide)

/-
`get_event_logs` (events_monitor.py:415-476), reduced to the sequence of
`(fromBlock, toBlock)` filter parameters of its `eth.get_logs` queries.  The
while loop runs as long as `_from <= to_block`; each pass queries
`[_from, min(_from + chunk_size - 1, to_block)]` and then advances `_from`
past the queried chunk.  The loop is embedded with explicit fuel
`(to_block + 1 - from_block).toNat`, which bounds the iteration count
whenever `chunk_size >= 1`.
-/
def get_event_logs_rangesAux (c : Int) : Nat → Int → Int → List (Int × Int)
  | 0, _, _ => []
  | fuel + 1, f, t =>
    if f ≤ t then
      (f, min (f + c - 1) t) :: get_event_logs_rangesAux c fuel (min (f + c - 1) t + 1) t
    else []

/-- The list of `[_from, _to]` chunks queried by
`get_event_logs(event_name, from_block, to_block, chunk_size)`. -/
def get_event_logs_ranges (f t c : Int) : List (Int × Int) :=
  get_event_logs_rangesAux c (t + 1 - f).toNat f t

/-- The inclusive integer interval `[f, t]` as a list. -/
def intRange (f t : Int) : List Int :=
  (List.range (t + 1 - f).toNat).map (fun i : Nat => f + (i : Int))

lemma intRange_split (f e t : Int) (h1 : f ≤ e + 1) (h2 : e ≤ t) :
    intRange f e ++ intRange (e + 1) t = intRange f t := by
  unfold intRange
  have ha : (t + 1 - f).toNat = (e + 1 - f).toNat + (t + 1 - (e + 1)).toNat := by omega
  rw [ha, List.range_add, List.map_append, List.map_map]
  congr 1
  have hfun : ((fun i : Nat => f + (i : Int)) ∘ (fun i : Nat => (e + 1 - f).toNat + i))
      = fun i : Nat => (e + 1) + (i : Int) := by
    funext i
    simp only [Function.comp_apply]
    omega
  rw [hfun]

lemma get_event_logs_rangesAux_spec (c : Int) (hc : 1 ≤ c) :
    ∀ (fuel : Nat) (f t : Int), (t + 1 - f).toNat ≤ fuel →
      ((get_event_logs_rangesAux c fuel f t).flatMap (fun p => intRange p.1 p.2)
          = intRange f t)
      ∧ (∀ p ∈ get_event_logs_rangesAux c fuel f t,
          f ≤ p.1 ∧ p.1 ≤ p.2 ∧ p.2 ≤ t ∧ p.2 - p.1 + 1 ≤ c)
      ∧ (∀ p ∈ (get_event_logs_rangesAux c fuel f t).dropLast, p.2 - p.1 + 1 = c) := by
  intro fuel
  induction fuel with
  | zero =>
    intro f t hfu
    have h0 : (t + 1 - f).toNat = 0 := by omega
    refine ⟨?_, by simp [get_event_logs_rangesAux], by simp [get_event_logs_rangesAux]⟩
    simp [get_event_logs_rangesAux, intRange, h0]
  | succ n ih =>
    intro f t hfu
    by_cases hft : f ≤ t
    · have hstep : get_event_logs_rangesAux c (n + 1) f t
          = (f, min (f + c - 1) t)
              :: get_event_logs_rangesAux c n (min (f + c - 1) t + 1) t := by
        simp [get_event_logs_rangesAux, hft]
      have he1 : f ≤ min (f + c - 1) t := by omega
      have he2 : min (f + c - 1) t ≤ t := by omega
      have he3 : min (f + c - 1) t ≤ f + c - 1 := by omega
      obtain ⟨ihc, ihb, ihd⟩ := ih (min (f + c - 1) t + 1) t (by omega)
      refine ⟨?_, ?_, ?_⟩
      · rw [hstep]
        simp only [List.flatMap_cons]
        rw [ihc]
        exact intRange_split f (min (f + c - 1) t) t (by omega) he2
      · rw [hstep]
        intro p hp
        rcases List.mem_cons.mp hp with hp | hp
        · subst hp
          exact ⟨le_refl _, he1, he2, by omega⟩
        · obtain ⟨h1, h2, h3, h4⟩ := ihb p hp
          exact ⟨by omega, h2, h3, h4⟩
      · rw [hstep]
        cases hr : get_event_logs_rangesAux c n (min (f + c - 1) t + 1) t with
        | nil => simp
        | cons q qs =>
          have het : min (f + c - 1) t + 1 ≤ t := by
            by_contra hcon
            cases n with
            | zero => simp [get_event_logs_rangesAux] at hr
            | succ m => simp [get_event_logs_rangesAux, hcon] at hr
          have hsize : min (f + c - 1) t = f + c - 1 := by omega
          intro p hp
          rw [List.dropLast_cons₂] at hp
          rcases List.mem_cons.mp hp with hp | hp
          · subst hp
            simp
            omega
          · exact ihd p (by rw [hr]; exact hp)
    · have h0 : (t + 1 - f).toNat = 0 := by omega
      refine ⟨?_, by simp [get_event_logs_rangesAux, hft], by simp [get_event_logs_rangesAux, hft]⟩
      simp [get_event_logs_rangesAux, hft, intRange, h0]

/-- C4: for every `from_block ≤ to_block` and `chunk_size ≥ 1`, the chunks
queried by `get_event_logs` concatenate, in order, to exactly the interval
`[from_block, to_block]` (so they are contiguous, non-overlapping, and cover
every block exactly once), each chunk spans at most `chunk_size` blocks, and
every chunk except possibly the final one spans exactly `chunk_size` blocks. -/
theorem get_event_logs_ranges_gap_overlap_free (f t c : Int) (hft : f ≤ t) (hc : 1 ≤ c) :
    ((get_event_logs_ranges f t c).flatMap (fun p => intRange p.1 p.2) = intRange f t)
    ∧ (∀ p ∈ get_event_logs_ranges f t c,
        f ≤ p.1 ∧ p.1 ≤ p.2 ∧ p.2 ≤ t ∧ p.2 - p.1 + 1 ≤ c)
    ∧ (∀ p ∈ (get_event_logs_ranges f t c).dropLast, p.2 - p.1 + 1 = c) :=
  get_event_logs_rangesAux_spec c hc ((t + 1 - f).toNat) f t (le_refl _)

/-- C4 witness: splitting `[0, 5]` with chunk size 2 gives `[0,1]`, `[2,3]`,
`[4,5]`, whose concatenation is exactly `[0, 5]`. -/
theorem get_event_logs_ranges_gap_overlap_free_witness :
    ((get_event_logs_ranges 0 5 2).flatMap (fun p => intRange p.1 p.2) = intRange 0 5)
    ∧ (∀ p ∈ get_event_logs_ranges 0 5 2,
        (0:Int) ≤ p.1 ∧ p.1 ≤ p.2 ∧ p.2 ≤ 5 ∧ p.2 - p.1 + 1 ≤ 2)
    ∧ (∀ p ∈ (get_event_logs_ranges 0 5 2).dropLast, p.2 - p.1 + 1 = 2) :=
  get_event_logs_ranges_gap_overlap_free 0 5 2 (by decide) (by decide)

/-
`process_current_blocks` (events_monitor.py:138-159), reduced to the sequence
of `(from_block, to_block)` arguments of its `process_block_range` calls and
to the checkpoint writes those calls perform.  `head` is
`self._web3.eth.block_number`: `none` models a non-integer value, `some 0` a
falsy one.
-/

/-- Python's `range(a, b, step)` for the step sizes used by the monitor
(`step >= 1`); embedded with fuel `(b - a).toNat`, enough iterations for any
positive step. -/
def pyRangeAux : Nat → Int → Int → Int → List Int
  | 0, _, _, _ => []
  | fuel + 1, a, b, step => if a < b then a :: pyRangeAux fuel (a + step) b step else []

/-- `range(from_block, current_block, self.blockchain_chunk_size)`. -/
def pyRange (a b step : Int) : List Int :=
  pyRangeAux (b - a).toNat a b step

/-- The `for end_block_chunk in range(...)` loop body (events_monitor.py:152-156):
each iteration calls `process_block_range(start_block_chunk, end_block_chunk)`
and then sets `start_block_chunk = end_block_chunk`. -/
def chunk_calls (start : Int) : List Int → List (Int × Int)
  | [] => []
  | e :: rest => (start, e) :: chunk_calls e rest

/-- The checkpoint effect of one `process_block_range(from, to)` call
(events_monitor.py:161-195): nothing when `from > to` (the early return at
line 167), otherwise `store_last_processed_block(to)`. -/
def block_range_store (d : Int) (s : Option Int) (call : Int × Int) : Option Int :=
  if call.1 > call.2 then s else store_last_processed_block d call.2 s

/-- `process_current_blocks`: returns the `process_block_range` calls it
issues and the checkpoint state they leave behind.  The guard at lines
142-147 returns immediately when the head is not an integer, is falsy, or is
`<= last_block`.  Otherwise the chunk loop runs and, because
`range(start, end)` does not include `end`, a final
`process_block_range(end_block_chunk, current_block)` call follows it. -/
def process_current_blocks (d chunk : Int) (head : Option Int) (s : Option Int) :
    List (Int × Int) × Option Int :=
  match head with
  | none => ([], s)
  | some current_block =>
    let last_block := get_last_processed_block d (readOf s)
    if current_block = 0 ∨ current_block ≤ last_block then ([], s)
    else
      let ends := pyRange last_block current_block chunk
      let calls := chunk_calls last_block ends ++ [(ends.getLastD last_block, current_block)]
      (calls, calls.foldl (block_range_store d) s)

/-- The `[_from, _to]` ledger queries issued, per event kind, across all
`process_block_range` calls of one `process_current_blocks` run: each call
delegates to `get_event_logs` with its own inner chunk size `c` unless its
range is empty. -/
def scanner_query_ranges (d chunk c : Int) (head : Option Int) (s : Option Int) :
    List (Int × Int) :=
  (process_current_blocks d chunk head s).1.flatMap
    (fun p => if p.1 > p.2 then [] else get_event_logs_ranges p.1 p.2 c)

/-- C5 counterexample: with chain head 1050, checkpoint 0 and chunk size 1000,
the per-event-kind ledger queries are not `[0,999], [1000,1050]`. -/
theorem scanner_ranges_1050_counterexample :
    scanner_query_ranges 0 1000 1000 (some 1050) none ≠ [(0, 999), (1000, 1050)] := by
  decide

/-- C5 (amended): a single `get_event_logs` call over `[0, 1050]` with chunk
size 1000 does issue exactly `[0,999], [1000,1050]`; but with head 1050 and
checkpoint 0, `process_current_blocks` splits the work into the overlapping
block ranges `[0,0], [0,1000], [1000,1050]`, so the scanner's per-event-kind
queries are `[0,0], [0,999], [1000,1000], [1000,1050]`. -/
theorem scanner_ranges_1050_actual :
    get_event_logs_ranges 0 1050 1000 = [(0, 999), (1000, 1050)]
    ∧ (process_current_blocks 0 1000 (some 1050) none).1
        = [(0, 0), (0, 1000), (1000, 1050)]
    ∧ scanner_query_ranges 0 1000 1000 (some 1050) none
        = [(0, 0), (0, 999), (1000, 1000), (1000, 1050)] := by
  refine ⟨by decide, by decide, by decide⟩

/-- C10: `process_current_blocks` returns immediately — issuing no
`process_block_range` call and leaving the checkpoint state untouched — when
the reported head block is not an integer, is falsy, or is at most the stored
checkpoint. -/
theorem process_current_blocks_noop_guard (d chunk current_block : Int) (s : Option Int) :
    process_current_blocks d chunk none s = ([], s)
    ∧ process_current_blocks d chunk (some 0) s = ([], s)
    ∧ (current_block ≤ get_last_processed_block d (readOf s) →
        process_current_blocks d chunk (some current_block) s = ([], s)) := by
  refine ⟨rfl, by simp [process_current_blocks], fun h => by simp [process_current_blocks, h]⟩

/-- C10 witness: with a stored checkpoint of 10 and head 3, nothing is
scanned and the checkpoint document is unchanged. -/
theorem process_current_blocks_noop_guard_witness :
    process_current_blocks 0 5 (some 3) (some 10) = ([], some 10) :=
  (process_current_blocks_noop_guard 0 5 3 (some 10)).2.2 (by decide)

/-
The monitor loop (events_monitor.py:115-136).  `stop_monitor` only assigns
`self._monitor_is_on = False`; `run_monitor` loops forever, and each
`do_run_monitor` iteration reads the flag once, at its start, returning
immediately when it is off and otherwise running a full
scan/dispatch/purgatory cycle (`step`).  A loop execution is modelled by the
sequence of flag values read at the successive iteration boundaries.
-/

/-- The flag value `stop_monitor` assigns to `self._monitor_is_on`. -/
def stop_monitor : Bool := false

/-- One `do_run_monitor` iteration: the flag is checked first; only when it is
on does the iteration run the scan/dispatch/purgatory body `step`. -/
def do_run_monitor {S : Type} (monitor_is_on : Bool) (step : S → S) (s : S) : S :=
  if monitor_is_on then step s else s

/-- The `run_monitor` while-loop over a finite prefix of iterations, reading
the given flag value at each iteration boundary. -/
def run_monitor {S : Type} (step : S → S) (flags : List Bool) (s : S) : S :=
  flags.foldl (fun st f => do_run_monitor f step st) s

/-- C9: stopping is cooperative and takes effect only at iteration
boundaries: once every subsequent boundary reads the flag value set by
`stop_monitor`, the extra iterations perform no scanning or dispatching —
the state after them is exactly the state the in-flight iterations left
behind. -/
theorem run_monitor_stop_no_further_processing {S : Type} (step : S → S)
    (flags : List Bool) (n : Nat) (s : S) :
    run_monitor step (flags ++ List.replicate n stop_monitor) s
      = run_monitor step flags s := by
  induction n generalizing flags with
  | zero => simp
  | succ m ih =>
    have h : flags ++ List.replicate (m + 1) stop_monitor
        = (flags ++ [stop_monitor]) ++ List.replicate m stop_monitor := by
      simp [List.replicate_succ]
    rw [h, ih]
    simp [run_monitor, do_run_monitor, stop_monitor]
